import Mathlib

/-!
# Verification of the azure-cli `resource` command module helpers

A shallow embedding of the pure helper routines of
`src/command_modules/azure-cli-resource/azure/cli/command_modules/resource/custom.py`:
parameter-document merging, interactive-parameter prompting, OData filter
construction, policy-scope construction, lock-parameter validation,
lock-update parameter patching, and API-version resolution, together with
theorems about their behaviour.

Python `None`-able string arguments are modelled as `Option String`; parsed
JSON documents as the inductive `Json`; Python dicts as association lists
with unique keys (`pyLookup` finds the first matching entry, matching a
Python dict where keys are unique); raised `CLIError` / `IncorrectUsageError`
exceptions as `Except.error` carrying the message.
-/

namespace AzureCliResource

/-! ## JSON values (results of `shell_safe_json_parse` / `get_file_json`) -/

inductive Json where
  | null : Json
  | str : String → Json
  | num : Int → Json
  | bool : Bool → Json
  | arr : List Json → Json
  | obj : List (String × Json) → Json

abbrev JDict := List (String × Json)

/-- Python truthiness of a parsed JSON value (`if params_object:`):
`None`, `''`, `0`, `False`, `[]` and `{}` are falsy, everything else truthy. -/
def pyTruthy : Json → Bool
  | Json.null => false
  | Json.str s => !s.isEmpty
  | Json.num n => n != 0
  | Json.bool b => b
  | Json.arr xs => !xs.isEmpty
  | Json.obj f => !f.isEmpty

/-- Python `d.get(k, dflt)` on a dict: the value at key `k`, else `dflt`. -/
def pyGet (f : JDict) (k : String) (dflt : Json) : Json :=
  match f.find? (fun p => p.1 == k) with
  | some p => p.2
  | none => dflt

/-- Lookup of key `k` in a dict (`d[k]` / `d.get(k)`), `none` when absent. -/
def pyLookup (f : JDict) (k : String) : Option Json :=
  (f.find? (fun p => p.1 == k)).map (fun p => p.2)

/-- Python `d[k] = v` on a dict: overwrite the entry for `k` in place when
present, append it otherwise. -/
def setKey (d : JDict) (k : String) (v : Json) : JDict :=
  if d.any (fun p => p.1 == k) then
    d.map (fun p => if p.1 == k then (k, v) else p)
  else
    d ++ [(k, v)]

/-- Python `d.update(e)` on dicts: set every entry of `e` into `d`, in
`e`'s order, so entries of `e` override entries of `d` with the same key. -/
def dictUpdate (d e : JDict) : JDict :=
  e.foldl (fun acc p => setKey acc p.1 p.2) d

/-! ## `_merge_parameters` (custom.py lines 157-167)

The Python function receives a list of strings and parses each with
`shell_safe_json_parse` (external to this module); the embedding receives
the already parsed `Json` documents.  A Python runtime `TypeError` /
`AttributeError` (calling `.get` or `.update` with a non-dict operand) is
modelled as `Except.error ()`. -/

/-- One document after the optional `'parameters'` envelope unwrapping:
`if params_object: params_object = params_object.get('parameters', params_object)`. -/
def unwrapDoc (params_object : Json) : Except Unit Json :=
  if pyTruthy params_object then
    match params_object with
    | Json.obj f => Except.ok (pyGet f "parameters" (Json.obj f))
    | _ => Except.error ()
  else
    Except.ok params_object

/-- The loop of `_merge_parameters`: `parameters` starts as `None`; the first
document is assigned, later documents are applied with `parameters.update`. -/
def mergeLoop : Option Json → List Json → Except Unit (Option Json)
  | parameters, [] => Except.ok parameters
  | parameters, params :: rest => do
    let params_object ← unwrapDoc params
    match parameters with
    | none => mergeLoop (some params_object) rest
    | some prev =>
      match prev, params_object with
      | Json.obj d, Json.obj e => mergeLoop (some (Json.obj (dictUpdate d e))) rest
      | _, _ => Except.error ()

/-- The function `_merge_parameters(parameter_list)`: merge the parsed parameter documents
in list order. -/
def _merge_parameters (parameter_list : List Json) : Except Unit (Option Json) :=
  mergeLoop none parameter_list

/-- The unwrapped dicts of a document list, when every document unwraps to a
JSON object. -/
def unwrapAll : List Json → Option (List JDict)
  | [] => some []
  | d :: rest =>
    match unwrapDoc d with
    | Except.ok (Json.obj f) => (unwrapAll rest).map (fun gs => f :: gs)
    | _ => none

/-- First-some combination of two optional values. -/
def optOr (a b : Option Json) : Option Json :=
  match a with
  | some v => some v
  | none => b

/-- The value for key `k` supplied by the LAST entry of a single dict that
defines `k`. -/
def lastLookup (g : JDict) (k : String) : Option Json :=
  pyLookup g.reverse k

/-- The value for key `k` supplied by the LAST document (in list order) that
defines `k`, searching the documents from the end. -/
def lastDefined (gs : List JDict) (k : String) : Option Json :=
  gs.reverse.findSome? (fun g => pyLookup g k)

/-! ## `_prompt_for_parameters` (custom.py lines 124-155)

The prompting helpers (`prompt`, `prompt_pass`, `prompt_int`, `prompt_t_f`,
`prompt_choice_list` from `azure.cli.core.prompting`) are external; they are
modelled by an oracle: a list of answers, each prompt consuming the next
answer of the matching kind.  `none` models a run that blocks (the oracle
ran out of answers, or an answer of the wrong kind was supplied). -/

/-- One answer collected from the user by one of the prompting helpers. -/
inductive PromptVal where
  | str : String → PromptVal
  | int : Int → PromptVal
  | bool : Bool → PromptVal
  | choice : Nat → PromptVal

/-- One template parameter of the `missing_parameters` dict: its name, its
declared `type` (defaulted to `'string'` by the source), and its optional
`allowedValues` list. -/
structure TemplateParam where
  name : String
  type : String
  allowedValues : Option (List String)

/-- The `while True` loop body of `_prompt_for_parameters` for a single
parameter: returns the entry stored into `result` (if any) and the remaining
answers.  `prompt_choice_list` yields an index into `allowedValues`;
secure-string and plain-string prompts loop until a non-empty answer and
store nothing into `result` (the source assigns `value` but never
`result[param_name]` on those two paths). -/
def promptLoop (param : TemplateParam) : List PromptVal → Option (Option (String × PromptVal) × List PromptVal)
  | [] => none
  | a :: rest =>
    match param.allowedValues with
    | some allowed_values =>
      match a with
      | PromptVal.choice ix =>
        match allowed_values.get? ix with
        | some v => some (some (param.name, PromptVal.str v), rest)
        | none => none
      | _ => none
    | none =>
      if param.type == "securestring" then
        match a with
        | PromptVal.str value => if value.length > 0 then some (none, rest) else promptLoop param rest
        | _ => none
      else if param.type == "int" then
        match a with
        | PromptVal.int n => some (some (param.name, PromptVal.int n), rest)
        | _ => none
      else if param.type == "bool" then
        match a with
        | PromptVal.bool b => some (some (param.name, PromptVal.bool b), rest)
        | _ => none
      else
        match a with
        | PromptVal.str value => if value.length > 0 then some (none, rest) else promptLoop param rest
        | _ => none

/-- The `for param_name in missing_parameters` loop: builds up the local
`result` dict. -/
def promptCollect : List TemplateParam → List PromptVal → List (String × PromptVal) → Option (List (String × PromptVal))
  | [], _, result => some result
  | param :: rest, answers, result =>
    match promptLoop param answers with
    | some (some entry, answers') => promptCollect rest answers' (result ++ [entry])
    | some (none, answers') => promptCollect rest answers' result
    | none => none

/-- The function `_prompt_for_parameters(missing_parameters)`: runs the collection loop and
then executes the source's final `return {}` (line 155), discarding the
collected `result`. -/
def _prompt_for_parameters (missing_parameters : List TemplateParam) (answers : List PromptVal) : Option (List (String × PromptVal)) :=
  match promptCollect missing_parameters answers [] with
  | some _result => some []
  | none => none

/-- The augmentation step of `_deploy_arm_template_core` (lines 188-190):
`for param_name in prompt_parameters: parameters[param_name] = prompt_parameters[param_name]`. -/
def applyPromptResults (parameters : JDict) (prompt_parameters : List (String × PromptVal)) : JDict :=
  prompt_parameters.foldl
    (fun acc p =>
      setKey acc p.1 (match p.2 with
        | PromptVal.str s => Json.str s
        | PromptVal.int n => Json.num n
        | PromptVal.bool b => Json.bool b
        | PromptVal.choice ix => Json.num (Int.ofNat ix)))
    parameters

/-! ## Option-string parameters and small string helpers -/

/-- Python truthiness of an optional string argument: `None` and `''` are
falsy. -/
def optTruthy : Option String → Bool
  | none => false
  | some s => !s.isEmpty

/-- Whether `p` is a prefix of `l` (character lists). -/
def isPrefixL : List Char → List Char → Bool
  | [], _ => true
  | _ :: _, [] => false
  | c :: p, d :: l => c == d && isPrefixL p l

/-- Whether `pat` occurs as a contiguous run somewhere in `l` (character lists). -/
def containsL (pat : List Char) : List Char → Bool
  | [] => pat.isEmpty
  | c :: rest => isPrefixL pat (c :: rest) || containsL pat rest

/-- Python `pat in s` on strings: `pat` occurs as a contiguous substring. -/
def strContainsSub (s pat : String) : Bool :=
  containsL pat.toList s.toList

/-- Python `s.lower()` (ASCII case folding, as in `str.lower` for the ASCII
resource-type and api-version strings this module compares). -/
def pyLower (s : String) : String :=
  String.mk (s.toList.map Char.toLower)

/-- The last character of a Python string, `s[-1]` (`none` when empty). -/
def strLast (s : String) : Option Char :=
  s.toList.getLast?

/-- Python `s[0:-1]`: the string without its last character. -/
def strDropLast (s : String) : String :=
  String.mk s.toList.dropLast

/-- Accumulating worker of `pySplitSlash`. -/
def splitSlashAux : List Char → List Char → List (List Char)
  | [], acc => [acc.reverse]
  | c :: rest, acc =>
    if c = '/' then acc.reverse :: splitSlashAux rest []
    else splitSlashAux rest (c :: acc)

/-- Python `s.split('/')`: the (always non-empty) list of `/`-separated
segments; `''.split('/') == ['']`. -/
def pySplitSlash (s : String) : List String :=
  (splitSlashAux s.toList []).map String.mk

/-! ## `_list_resources_odata_filter_builder` (custom.py lines 267-311) -/

/-- The `tag` argument: the CLI hands the builder either a parsed
`{name: value}` dict or a plain string. -/
inductive TagArg where
  | dict : List (String × String) → TagArg
  | str : String → TagArg

/-- Python truthiness of the optional `tag` argument (`if tag:`): absent,
empty dict and empty string are falsy. -/
def tagTruthy : Option TagArg → Bool
  | none => false
  | some (TagArg.dict entries) => !entries.isEmpty
  | some (TagArg.str s) => !s.isEmpty

/-- Python `list(tag.keys())[0] if isinstance(tag, dict) else tag`. -/
def tagName : TagArg → String
  | TagArg.dict entries => (entries.headD ("", "")).1
  | TagArg.str s => s

/-- Python `tag[tag_name] if isinstance(tag, dict) else ''`. -/
def tagValue : TagArg → String
  | TagArg.dict entries => (entries.headD ("", "")).2
  | TagArg.str _ => ""

/-- The tag predicates appended by lines 304-310: a `startswith(tagname, …)`
predicate when the tag name ends in `*`, otherwise a `tagname eq` predicate
plus a `tagvalue eq` predicate when the value is non-empty. -/
def tagFilters (tag_name tag_value : String) : List String :=
  if !tag_name.isEmpty then
    if strLast tag_name = some '*' then
      ["startswith(tagname, '" ++ strDropLast tag_name ++ "')"]
    else
      ("tagname eq '" ++ tag_name ++ "'") ::
        (if tag_value ≠ "" then ["tagvalue eq '" ++ tag_value ++ "'"] else [])
  else []

/-- After the first character (which is not `/`) of the resource type: scan
for the first `/` and require a following non-`/` character. -/
def nsTypeTail : List Char → Bool
  | [] => false
  | '/' :: rest =>
    match rest with
    | [] => false
    | d :: _ => d ≠ '/'
  | _ :: rest => nsTypeTail rest

/-- Whether `re.match('[^/]+/[^/]+', resource_type)` succeeds: the string starts with
one or more non-`/` characters, then `/`, then at least one non-`/`
character. -/
def matchNsType (s : String) : Bool :=
  match s.toList with
  | [] => false
  | c :: rest => c ≠ '/' && nsTypeTail rest

/-- The `resourceType eq …` block (lines 283-296): with a namespace the
operand is `'<namespace>/<type>'`; without one the type must already match
`<namespace>/<type>`, else `CLIError`; a namespace without a type is a
`CLIError`. -/
def typeFilterList (resource_provider_namespace resource_type : Option String) : Except String (List String) :=
  if optTruthy resource_type then
    if optTruthy resource_provider_namespace then
      Except.ok ["resourceType eq '" ++ resource_provider_namespace.getD "" ++ "/" ++ resource_type.getD "" ++ "'"]
    else if !matchNsType (resource_type.getD "") then
      Except.error "Malformed resource-type: --resource-type=<namespace>/<resource-type> expected."
    else
      Except.ok ["resourceType eq '" ++ resource_type.getD "" ++ "'"]
  else if optTruthy resource_provider_namespace then
    Except.error "--namespace also requires --resource-type"
  else
    Except.ok []

/-- The tag block (lines 298-310): a tag together with a name or location
filter is an `IncorrectUsageError`; otherwise the tag predicates of
`tagFilters` are appended. -/
def tagFilterList (name location : Option String) (tag : Option TagArg) : Except String (List String) :=
  if tagTruthy tag then
    if optTruthy name || optTruthy location then
      Except.error "you cannot use the tag filter with other filters"
    else
      Except.ok (tagFilters (tagName (tag.getD (TagArg.str ""))) (tagValue (tag.getD (TagArg.str ""))))
  else
    Except.ok []

/-- The function `_list_resources_odata_filter_builder(...)`: the appended predicates, in
source order (resource group, name, location, resource type, tag), joined
with `' and '`. -/
def _list_resources_odata_filter_builder
    (resource_group_name resource_provider_namespace resource_type name : Option String)
    (tag : Option TagArg) (location : Option String) : Except String String := do
  let base : List String :=
    (if optTruthy resource_group_name then ["resourceGroup eq '" ++ resource_group_name.getD "" ++ "'"] else []) ++
    (if optTruthy name then ["name eq '" ++ name.getD "" ++ "'"] else []) ++
    (if optTruthy location then ["location eq '" ++ location.getD "" ++ "'"] else [])
  let tyF ← typeFilterList resource_provider_namespace resource_type
  let tgF ← tagFilterList name location tag
  Except.ok (String.intercalate " and " (base ++ tyF ++ tgF))

/-! ## `_build_policy_scope` (custom.py lines 438-448) -/

/-- The function `_build_policy_scope(subscription_id, resource_group_name, scope)`. -/
def _build_policy_scope (subscription_id : String) (resource_group_name scope : Option String) : Except String String :=
  let subscription_scope := "/subscriptions/" ++ subscription_id
  if optTruthy scope then
    if optTruthy resource_group_name then
      Except.error ("Resource group '" ++ resource_group_name.getD "" ++ "' is redundant because 'scope' is supplied")
    else
      Except.ok (scope.getD "")
  else if optTruthy resource_group_name then
    Except.ok (subscription_scope ++ "/resourceGroups/" ++ resource_group_name.getD "")
  else
    Except.ok subscription_scope

/-! ## `_validate_lock_params` (custom.py lines 567-602) -/

/-- The function `_validate_lock_params(resource_group_name, resource_provider_namespace,
parent_resource_path, resource_type, resource_name)`: the validated
`(resource_group_name, resource_name, resource_provider_namespace,
resource_type)` tuple, or the raised `CLIError` message. -/
def _validate_lock_params
    (resource_group_name resource_provider_namespace parent_resource_path resource_type resource_name : Option String) :
    Except String (Option String × Option String × Option String × Option String) :=
  match resource_group_name with
  | none =>
    if resource_name ≠ none then
      Except.error "--resource-name is ignored if --resource-group is not given."
    else if resource_type ≠ none then
      Except.error "--resource-type is ignored if --resource-group is not given."
    else if resource_provider_namespace ≠ none then
      Except.error "--namespace is ignored if --resource-group is not given."
    else if parent_resource_path ≠ none then
      Except.error "--parent is ignored if --resource-group is not given."
    else
      Except.ok (none, none, none, none)
  | some rg =>
    match resource_name with
    | none =>
      if resource_type ≠ none then
        Except.error "--resource-type is ignored if --resource-name is not given."
      else if resource_provider_namespace ≠ none then
        Except.error "--namespace is ignored if --resource-name is not given."
      else if parent_resource_path ≠ none then
        Except.error "--parent is ignored if --resource-name is not given."
      else
        Except.ok (some rg, none, none, none)
    | some nm =>
      match resource_type with
      | none => Except.error "--resource-type is required if --resource-name is present"
      | some ty =>
        if ty.length == 0 then
          Except.error "--resource-type is required if --resource-name is present"
        else
          let parts := pySplitSlash ty
          match resource_provider_namespace with
          | none =>
            if parts.length == 1 then
              Except.error "A resource namespace is required if --resource-name is present.Expected <namespace>/<type> or --namespace=<namespace>"
            else
              Except.ok (some rg, some nm, some (parts.headD ""), some ((parts.get? 1).getD ""))
          | some ns =>
            if parts.length != 1 then
              Except.error "Resource namespace specified in both --resource-type and --namespace"
            else
              Except.ok (some rg, some nm, some ns, some ty)

/-! ## `_update_lock_parameters` and `update_lock` (custom.py lines 644-663) -/

/-- A `ManagementLockObject` as manipulated by `_update_lock_parameters`.
Python objects accept assignment to arbitrary attribute names; the
misspelled assignment `parameters.nodes = notes` (line 648) creates a fresh
`nodes` attribute, modelled by the extra `nodes` field. -/
structure ManagementLockObject where
  level : Option String
  notes : Option String
  id : Option String
  type : Option String
  nodes : Option String

/-- The function `_update_lock_parameters(parameters, level, notes, lock_id, lock_type)`:
the lock object after the four conditional assignments. -/
def _update_lock_parameters (parameters : ManagementLockObject)
    (level notes lock_id lock_type : Option String) : ManagementLockObject :=
  let parameters := if level ≠ none then { parameters with level := level } else parameters
  let parameters := if notes ≠ none then { parameters with nodes := notes } else parameters
  let parameters := if lock_id ≠ none then { parameters with id := lock_id } else parameters
  let parameters := if lock_type ≠ none then { parameters with type := lock_type } else parameters
  parameters

/-- The lock object `update_lock` sends back to the service (lines 654-663):
the fetched lock patched by `_update_lock_parameters(params, level, notes,
None, None)`.  Fetching and re-sending are remote-client calls, external to
this module. -/
def update_lock_sent (fetched : ManagementLockObject) (level notes : Option String) : ManagementLockObject :=
  _update_lock_parameters fetched level notes none none

/-! ## `_ResourceUtils._resolve_api_version` (custom.py lines 808-827) -/

/-- One entry of `provider.resource_types` as used by the resolver. -/
structure ProviderResourceType where
  resource_type : String
  api_versions : List String

/-- The resource-type string whose versions are looked up (lines 813-814):
the first segment of the parent path when a parent path is supplied,
otherwise the resource type itself. -/
def resolveTypeStr (parent_resource_path : Option String) (resource_type : String) : String :=
  if optTruthy parent_resource_path then
    (pySplitSlash (parent_resource_path.getD "")).headD ""
  else
    resource_type

/-- The provider entries matching the requested type case-insensitively
(lines 816-817). -/
def matchingTypes (resource_types : List ProviderResourceType) (resource_type_str : String) :
    List ProviderResourceType :=
  resource_types.filter (fun t => pyLower t.resource_type == pyLower resource_type_str)

/-- The method `_ResourceUtils._resolve_api_version(rcf, resource_provider_namespace,
parent_resource_path, resource_type)`: the remote `rcf.providers.get` call
is external, so the embedding receives the provider's declared
`resource_types` directly. -/
def _resolve_api_version (resource_types : List ProviderResourceType)
    (parent_resource_path : Option String) (resource_type : String) : Except String String :=
  let resource_type_str := resolveTypeStr parent_resource_path resource_type
  match matchingTypes resource_types resource_type_str with
  | [] => Except.error ("Resource type " ++ resource_type_str ++ " not found.")
  | [t] =>
    if t.api_versions.isEmpty then
      Except.error ("API version is required and could not be resolved for resource " ++ resource_type)
    else
      match t.api_versions.filter (fun v => !strContainsSub (pyLower v) "preview") with
      | [] => Except.ok (t.api_versions.headD "")
      | v :: _ => Except.ok v
  | _ =>
    Except.error ("API version is required and could not be resolved for resource " ++ resource_type)

/-! ## `_ResourceUtils._resolve_api_version_by_id` (custom.py lines 829-848)

`parse_resource_id` lives in `azure.cli.core.commands.arm`, outside this
module; its result is the dict the decomposition reads.  A field holding
`none` models a dict without that key (`parse_resource_id` drops unmatched
groups, which is why the source reads it with `.get`). -/

/-- The fields of the `parse_resource_id` result dict read by the
decomposition (`namespace` is a Lean keyword, hence `nspace`). -/
structure ParsedId where
  nspace : String
  type : String
  name : String
  child_namespace : Option String
  child_type : Option String
  child_name : Option String
  grandchild_type : Option String
  grandchild_name : Option String

/-- The `(namespace, parent, resource_type)` triple that
`_resolve_api_version_by_id` passes on to `_resolve_api_version`
(lines 831-847).  `none` models a Python `KeyError` on a missing
`parts['child_type']` / `parts['child_name']`. -/
def resolveDecompose (parts : ParsedId) : Option (String × Option String × String) :=
  let nmsp := parts.child_namespace.getD parts.nspace
  if optTruthy parts.grandchild_type then
    match parts.child_type, parts.child_name, parts.grandchild_type with
    | some ct, some cn, some gt =>
      some (nmsp, some (parts.type ++ "/" ++ parts.name ++ "/" ++ ct ++ "/" ++ cn), gt)
    | _, _, _ => none
  else if optTruthy parts.child_type then
    let parent := if parts.child_namespace ≠ none then "" else parts.type ++ "/" ++ parts.name
    match parts.child_type with
    | some ct => some (nmsp, some parent, ct)
    | none => none
  else
    some (parts.nspace, none, parts.type)

/-- The method `_resolve_api_version_by_id(rcf, resource_id)`: decompose the parsed id
and resolve the version against the provider's declared types. -/
def _resolve_api_version_by_id (resource_types : List ProviderResourceType) (parts : ParsedId) :
    Option (Except String String) :=
  (resolveDecompose parts).map (fun d => _resolve_api_version resource_types d.2.1 d.2.2)

/-- Modelled from the spec: `parse_resource_id` (in `azure.cli.core.commands.arm`,
not under src/) applied to an id of the shape
`/subscriptions/S/resourceGroups/G/providers/NS/TypeA/name1/TypeB/name2`,
where the child segment carries no provider namespace of its own: the parent
resource contributes `namespace`/`type`/`name` and the nested segment
contributes `child_type`/`child_name`. -/
def parseChildId (ns tyA name1 tyB name2 : String) : ParsedId :=
  { nspace := ns, type := tyA, name := name1,
    child_namespace := none, child_type := some tyB, child_name := some name2,
    grandchild_type := none, grandchild_name := none }

/-- Modelled from the spec: `parse_resource_id` (in `azure.cli.core.commands.arm`,
not under src/) applied to an id of the shape
`/subscriptions/S/resourceGroups/G/providers/NS/TypeA/name1/providers/NS2/TypeB/name2`,
where the child segment carries its own provider namespace `NS2`, recorded
as `child_namespace`. -/
def parseChildIdOwnNs (ns tyA name1 ns2 tyB name2 : String) : ParsedId :=
  { nspace := ns, type := tyA, name := name1,
    child_namespace := some ns2, child_type := some tyB, child_name := some name2,
    grandchild_type := none, grandchild_name := none }

/-! ## `_ResourceUtils.__init__` normalization (custom.py lines 714-724) -/

/-- The namespace/type normalization at the start of `_ResourceUtils.__init__`:
when a resource type of the form `namespace/type` is supplied without an
explicit namespace and without a parent path, the namespace is split out of
the string; the returned pair is the
`(resource_provider_namespace, resource_type)` the constructor proceeds
with. -/
def resourceUtilsInitSplit (resource_provider_namespace parent_resource_path resource_type : Option String) :
    Option String × Option String :=
  if optTruthy resource_type && !optTruthy resource_provider_namespace && !optTruthy parent_resource_path then
    let parts := pySplitSlash (resource_type.getD "")
    if parts.length > 1 then
      (some (parts.headD ""), some ((parts.get? 1).getD ""))
    else
      (resource_provider_namespace, resource_type)
  else
    (resource_provider_namespace, resource_type)

/-! ## Theorems -/

/-- C8: `_build_policy_scope` rejects an explicit scope combined with a
resource group; with only a resource group it returns
`/subscriptions/<sub>/resourceGroups/<rg>`; with neither it returns
`/subscriptions/<sub>`; with only a scope it returns the scope unchanged. -/
theorem build_policy_scope_cases (subscription_id : String) (rg sc : Option String) :
    (optTruthy sc = true → optTruthy rg = true →
      ∃ e, _build_policy_scope subscription_id rg sc = Except.error e) ∧
    (optTruthy sc = false → optTruthy rg = true →
      _build_policy_scope subscription_id rg sc =
        Except.ok ("/subscriptions/" ++ subscription_id ++ "/resourceGroups/" ++ rg.getD "")) ∧
    (optTruthy sc = false → optTruthy rg = false →
      _build_policy_scope subscription_id rg sc =
        Except.ok ("/subscriptions/" ++ subscription_id)) ∧
    (optTruthy sc = true → optTruthy rg = false →
      _build_policy_scope subscription_id rg sc = Except.ok (sc.getD "")) := by
  refine ⟨fun h1 h2 => ?_, fun h1 h2 => ?_, fun h1 h2 => ?_, fun h1 h2 => ?_⟩ <;>
    simp [_build_policy_scope, h1, h2]

/-- C8 witness: concrete instances of the four cases. -/
theorem build_policy_scope_cases_witness :
    (∃ e, _build_policy_scope "sub1" (some "rg1") (some "/custom/scope") = Except.error e) ∧
    _build_policy_scope "sub1" (some "rg1") none =
      Except.ok "/subscriptions/sub1/resourceGroups/rg1" ∧
    _build_policy_scope "sub1" none none = Except.ok "/subscriptions/sub1" ∧
    _build_policy_scope "sub1" none (some "/custom/scope") = Except.ok "/custom/scope" := by
  have h := build_policy_scope_cases "sub1" (some "rg1") (some "/custom/scope")
  have h2 := build_policy_scope_cases "sub1" (some "rg1") none
  have h3 := build_policy_scope_cases "sub1" none none
  have h4 := build_policy_scope_cases "sub1" none (some "/custom/scope")
  exact ⟨h.1 rfl rfl, h2.2.1 rfl rfl, h3.2.2.1 rfl rfl, h4.2.2.2 rfl rfl⟩

/-- C3: `_validate_lock_params` raises on a resource type without a resource
group, and on a resource name without a (non-empty) resource type. -/
theorem validate_lock_params_dependency_errors (rg ns pp ty nm : Option String) :
    (ty ≠ none → rg = none →
      ∃ e, _validate_lock_params rg ns pp ty nm = Except.error e) ∧
    (nm ≠ none → (ty = none ∨ ty = some "") →
      ∃ e, _validate_lock_params rg ns pp ty nm = Except.error e) := by
  constructor
  · intro hty hrg
    subst hrg
    by_cases hnm : nm = none
    · subst hnm
      simp [_validate_lock_params, hty]
    · simp [_validate_lock_params, hnm]
  · intro hnm hty
    match rg with
    | none => simp [_validate_lock_params, hnm]
    | some rgv =>
      match nm, hnm with
      | some nmv, _ =>
        rcases hty with h | h <;> subst h <;> simp [_validate_lock_params, String.length]

/-- C3 witness: a type without a group and a name without a type both fail. -/
theorem validate_lock_params_dependency_errors_witness :
    (∃ e, _validate_lock_params none none none (some "Microsoft.Web/sites") none = Except.error e) ∧
    (∃ e, _validate_lock_params (some "rg1") none none none (some "site1") = Except.error e) := by
  have h1 := validate_lock_params_dependency_errors none none none (some "Microsoft.Web/sites") none
  have h2 := validate_lock_params_dependency_errors (some "rg1") none none none (some "site1")
  exact ⟨h1.1 (by simp) rfl, h2.2 (by simp) (Or.inl rfl)⟩

/-- C10: the lock object `update_lock` sends back keeps the fetched lock's
`notes` (the source assigns the misspelled attribute `nodes` instead), so
of the lock's real fields only `level` is updated. -/
theorem update_lock_keeps_notes (fetched : ManagementLockObject) (level notes : Option String) :
    (update_lock_sent fetched level notes).notes = fetched.notes ∧
    (update_lock_sent fetched level notes).id = fetched.id ∧
    (update_lock_sent fetched level notes).type = fetched.type ∧
    (update_lock_sent fetched level notes).level =
      (if level ≠ none then level else fetched.level) ∧
    (update_lock_sent fetched level notes).nodes =
      (if notes ≠ none then notes else fetched.nodes) := by
  by_cases hl : level = none <;> by_cases hn : notes = none <;>
    simp [update_lock_sent, _update_lock_parameters, hl, hn]

/-- C5: `_prompt_for_parameters` returns the empty mapping whatever answers
were collected, so the prompted values never change the merged deployment
parameters in `_deploy_arm_template_core`. -/
theorem prompt_for_parameters_returns_empty
    (missing : List TemplateParam) (answers : List PromptVal) (r : List (String × PromptVal))
    (h : _prompt_for_parameters missing answers = some r) :
    r = [] ∧ ∀ parameters : JDict, applyPromptResults parameters r = parameters := by
  unfold _prompt_for_parameters at h
  match hc : promptCollect missing answers [] with
  | none => rw [hc] at h; exact absurd h (by simp)
  | some collected =>
    rw [hc] at h
    have hr : r = [] := by
      have : some ([] : List (String × PromptVal)) = some r := h
      exact (Option.some_injective _ this).symm
    subst hr
    exact ⟨rfl, fun parameters => rfl⟩

/-- C5 witness: a missing integer parameter answered with `3` still yields
the empty mapping, which leaves any parameter dict unchanged. -/
theorem prompt_for_parameters_returns_empty_witness :
    ([] : List (String × PromptVal)) = [] ∧
    applyPromptResults [("x", Json.num 1)] [] = [("x", Json.num 1)] :=
  have h := prompt_for_parameters_returns_empty
    [⟨"count", "int", none⟩] [PromptVal.int 3] [] rfl
  ⟨h.1, h.2 [("x", Json.num 1)]⟩

/-- C9: a resource type of the form `<namespace>/<type>` supplied without an
explicit namespace is split before validation: `_validate_lock_params`
returns the first segment as the namespace and the second as the type, and
the `_ResourceUtils.__init__` normalization (with no parent path) splits the
same way. -/
theorem embedded_namespace_is_split
    (rgv nmv : String) (pp : Option String) (ty nsv t : String) (rest : List String)
    (hsplit : pySplitSlash ty = nsv :: t :: rest) :
    _validate_lock_params (some rgv) none pp (some ty) (some nmv) =
      Except.ok (some rgv, some nmv, some nsv, some t) ∧
    (optTruthy pp = false →
      resourceUtilsInitSplit none pp (some ty) = (some nsv, some t)) := by
  have hty : ty ≠ "" := by
    intro h
    subst h
    have hx : ([""] : List String) = nsv :: t :: rest := hsplit
    simp at hx
  have hblen : (ty.length == 0) = false := by
    apply beq_eq_false_iff_ne.mpr
    intro h0
    apply hty
    apply String.ext
    have hd : ty.data.length = 0 := h0
    simpa using List.length_eq_zero.mp hd
  have hplen : ((pySplitSlash ty).length == 1) = false := by
    rw [hsplit]
    simp
  have hemp : ty.isEmpty = false := by
    rw [Bool.eq_false_iff]
    intro h
    exact hty ((String.isEmpty_iff ty).mp h)
  constructor
  · simp only [_validate_lock_params, hblen, Bool.false_eq_true, if_false, hsplit, hplen,
      List.headD_cons, List.get?]
    rfl
  · intro hpp
    have htyT : optTruthy (some ty) = true := by
      simp [optTruthy, hemp]
    have hnone : optTruthy (none : Option String) = false := rfl
    simp only [resourceUtilsInitSplit, htyT, hnone, hpp, Bool.not_false, Bool.and_self,
      Bool.and_true, Bool.true_and, if_true, Option.getD_some, hsplit]
    rw [if_pos (by simp)]
    simp

/-- C9 witness: `Microsoft.Web/sites` is split into namespace
`Microsoft.Web` and type `sites` by both functions. -/
theorem embedded_namespace_is_split_witness :
    _validate_lock_params (some "rg1") none none (some "Microsoft.Web/sites") (some "site1") =
      Except.ok (some "rg1", some "site1", some "Microsoft.Web", some "sites") ∧
    resourceUtilsInitSplit none none (some "Microsoft.Web/sites") =
      (some "Microsoft.Web", some "sites") :=
  have h := embedded_namespace_is_split "rg1" "site1" none "Microsoft.Web/sites"
    "Microsoft.Web" "sites" [] (by decide)
  ⟨h.1, h.2 rfl⟩

/-- C2: decomposing a one-level-nested resource id: a child without its own
provider namespace yields namespace `NS`, parent `TypeA/name1` and resource
type `TypeB`; a child carrying its own namespace yields that namespace and
an empty parent, and `_resolve_api_version_by_id` resolves with exactly
those parts. -/
theorem resolve_by_id_child_decomposition
    (ns tyA name1 ns2 tyB name2 : String) (hB : tyB ≠ "") :
    resolveDecompose (parseChildId ns tyA name1 tyB name2) =
      some (ns, some (tyA ++ "/" ++ name1), tyB) ∧
    resolveDecompose (parseChildIdOwnNs ns tyA name1 ns2 tyB name2) =
      some (ns2, some "", tyB) ∧
    (∀ rts, _resolve_api_version_by_id rts (parseChildId ns tyA name1 tyB name2) =
      some (_resolve_api_version rts (some (tyA ++ "/" ++ name1)) tyB)) ∧
    (∀ rts, _resolve_api_version_by_id rts (parseChildIdOwnNs ns tyA name1 ns2 tyB name2) =
      some (_resolve_api_version rts (some "") tyB)) := by
  have hemp : tyB.isEmpty = false := by
    rw [Bool.eq_false_iff]
    intro h
    exact hB ((String.isEmpty_iff tyB).mp h)
  have h1 : resolveDecompose (parseChildId ns tyA name1 tyB name2) =
      some (ns, some (tyA ++ "/" ++ name1), tyB) := by
    simp [resolveDecompose, parseChildId, optTruthy, hemp]
  have h2 : resolveDecompose (parseChildIdOwnNs ns tyA name1 ns2 tyB name2) =
      some (ns2, some "", tyB) := by
    simp [resolveDecompose, parseChildIdOwnNs, optTruthy, hemp]
  refine ⟨h1, h2, fun rts => ?_, fun rts => ?_⟩
  · simp [_resolve_api_version_by_id, h1]
  · simp [_resolve_api_version_by_id, h2]

/-- C2 witness: the id parts for
`.../providers/Microsoft.Web/sites/mysite/config/web` and for a child with
its own namespace. -/
theorem resolve_by_id_child_decomposition_witness :
    resolveDecompose (parseChildId "Microsoft.Web" "sites" "mysite" "config" "web") =
      some ("Microsoft.Web", some "sites/mysite", "config") ∧
    resolveDecompose
        (parseChildIdOwnNs "Microsoft.Web" "sites" "mysite" "Microsoft.Insights" "components" "c1") =
      some ("Microsoft.Insights", some "", "components") ∧
    _resolve_api_version_by_id [⟨"sites", ["2016-08-01"]⟩]
        (parseChildId "Microsoft.Web" "sites" "mysite" "config" "web") =
      some (_resolve_api_version [⟨"sites", ["2016-08-01"]⟩] (some "sites/mysite") "config") ∧
    _resolve_api_version_by_id [⟨"components", ["2015-05-01"]⟩]
        (parseChildIdOwnNs "Microsoft.Web" "sites" "mysite" "Microsoft.Insights" "components" "c1") =
      some (_resolve_api_version [⟨"components", ["2015-05-01"]⟩] (some "") "components") := by
  have h := resolve_by_id_child_decomposition "Microsoft.Web" "sites" "mysite" "Microsoft.Insights"
    "config" "web" (by decide)
  have h' := resolve_by_id_child_decomposition "Microsoft.Web" "sites" "mysite" "Microsoft.Insights"
    "components" "c1" (by decide)
  exact ⟨h.1, h'.2.1, h.2.2.1 [⟨"sites", ["2016-08-01"]⟩], h'.2.2.2 [⟨"components", ["2015-05-01"]⟩]⟩

/-- The last character of a string ending in `*` is `*`. -/
theorem strLast_append_star (m : String) : strLast (m ++ "*") = some '*' := by
  unfold strLast
  have hd : (m ++ "*").toList = m.toList ++ ['*'] := String.data_append m "*"
  rw [hd, List.getLast?_concat]

/-- Dropping the last character of a string ending in `*` recovers the stem. -/
theorem strDropLast_append_star (m : String) : strDropLast (m ++ "*") = m := by
  unfold strDropLast
  have hd : (m ++ "*").toList = m.toList ++ ['*'] := String.data_append m "*"
  rw [hd, List.dropLast_concat]
  rfl

/-- A string whose last character is `*` is a stem followed by `*`. -/
theorem eq_append_star_of_strLast (n : String) (h : strLast n = some '*') :
    n = strDropLast n ++ "*" := by
  unfold strLast at h
  have hne : n.data ≠ [] := by
    intro hnil
    rw [show n.toList = n.data from rfl, hnil] at h
    exact absurd h (by simp)
  have hget : n.data.getLast hne = '*' := by
    have hq := List.getLast?_eq_getLast n.data hne
    rw [show n.toList = n.data from rfl, hq] at h
    exact (Option.some_injective _ h.symm).symm
  apply String.ext
  show n.data = (strDropLast n ++ "*").data
  rw [String.data_append]
  show n.data = n.data.dropLast ++ ['*']
  conv_lhs => rw [← List.dropLast_append_getLast hne]
  rw [hget]

/-- A string whose last character is not `*` is no stem followed by `*`. -/
theorem ne_append_star_of_strLast (n : String) (h : strLast n ≠ some '*') :
    ∀ m, n ≠ m ++ "*" := by
  intro m hm
  exact h (hm ▸ strLast_append_star m)

/-- C6: a tag name ending in `*` produces exactly the
`startswith(tagname, '<stem>')` predicate; a tag name not ending in `*`
produces the exact `tagname eq` predicate, plus a `tagvalue eq` predicate
when a non-empty value is given. -/
theorem tag_star_emits_startswith (n v : String) (hn : n ≠ "") :
    (∀ m, n = m ++ "*" →
      tagFilters n v = ["startswith(tagname, '" ++ m ++ "')"]) ∧
    ((∀ m, n ≠ m ++ "*") →
      tagFilters n v =
        ("tagname eq '" ++ n ++ "'") ::
          (if v ≠ "" then ["tagvalue eq '" ++ v ++ "'"] else [])) := by
  have hemp : n.isEmpty = false := by
    rw [Bool.eq_false_iff]
    intro h
    exact hn ((String.isEmpty_iff n).mp h)
  constructor
  · intro m hm
    subst hm
    rw [tagFilters, if_pos (by simp [hemp]), if_pos (strLast_append_star m),
      strDropLast_append_star]
  · intro hnot
    have hstar : ¬ strLast n = some '*' := by
      intro h
      exact hnot (strDropLast n) (eq_append_star_of_strLast n h)
    rw [tagFilters, if_pos (by simp [hemp]), if_neg hstar]

/-- C6 witness: the tag names `env*` and `env` produce a `startswith`
predicate and an exact predicate respectively. -/
theorem tag_star_emits_startswith_witness :
    tagFilters "env*" "prod" = ["startswith(tagname, 'env')"] ∧
    tagFilters "env" "prod" = ["tagname eq 'env'", "tagvalue eq 'prod'"] := by
  have h1 := (tag_star_emits_startswith "env*" "prod" (by decide)).1 "env" rfl
  have h2 := (tag_star_emits_startswith "env" "prod" (by decide)).2
    (ne_append_star_of_strLast "env" (by decide))
  refine ⟨h1, ?_⟩
  rw [h2]
  rfl

/-- The head of a filtered list, with a default for the empty case, is the
first element satisfying the predicate. -/
theorem filter_match_eq_find {α : Type} (p : α → Bool) (l : List α) (d : α) :
    (match l.filter p with
     | [] => d
     | v :: _ => v) = (l.find? p).getD d := by
  induction l with
  | nil => rfl
  | cons a l ih =>
    by_cases h : p a = true
    · simp [List.filter_cons, List.find?_cons, h]
    · simp [List.filter_cons, List.find?_cons, h, ih]

/-- C1: when exactly one declared type matches the requested type string
case-insensitively and it has versions, the resolver returns its first
version whose lowercase text lacks `preview`, else its first version. -/
theorem resolve_api_version_first_nonpreview
    (rts : List ProviderResourceType) (pp : Option String) (ty : String)
    (t : ProviderResourceType)
    (hmatch : matchingTypes rts (resolveTypeStr pp ty) = [t])
    (hne : t.api_versions ≠ []) :
    _resolve_api_version rts pp ty =
      Except.ok ((t.api_versions.find? (fun v => !strContainsSub (pyLower v) "preview")).getD
        (t.api_versions.headD "")) := by
  have hempty : t.api_versions.isEmpty = false := by
    rw [Bool.eq_false_iff]
    intro h
    exact hne (List.isEmpty_iff.mp h)
  simp only [_resolve_api_version, hmatch, hempty, Bool.false_eq_true, if_false]
  have hfm := filter_match_eq_find (fun v => !strContainsSub (pyLower v) "preview")
    t.api_versions (t.api_versions.headD "")
  cases hf : t.api_versions.filter (fun v => !strContainsSub (pyLower v) "preview") with
  | nil =>
    rw [hf] at hfm
    simp only [hf]
    exact congrArg Except.ok hfm
  | cons v l =>
    rw [hf] at hfm
    simp only [hf]
    exact congrArg Except.ok hfm

/-- C1 witness: among `2016-03-30-preview` and `2016-03-30`, the first
non-preview version `2016-03-30` is chosen; with only preview versions the
first entry is chosen. -/
theorem resolve_api_version_first_nonpreview_witness :
    _resolve_api_version [⟨"virtualMachines", ["2016-03-30-preview", "2016-03-30"]⟩]
      none "virtualMachines" = Except.ok "2016-03-30" ∧
    _resolve_api_version [⟨"virtualMachines", ["2016-03-30-preview", "2016-04-30-PREVIEW"]⟩]
      none "virtualMachines" = Except.ok "2016-03-30-preview" := by
  have h1 := resolve_api_version_first_nonpreview
    [⟨"virtualMachines", ["2016-03-30-preview", "2016-03-30"]⟩] none "virtualMachines"
    ⟨"virtualMachines", ["2016-03-30-preview", "2016-03-30"]⟩ rfl (by simp)
  have h2 := resolve_api_version_first_nonpreview
    [⟨"virtualMachines", ["2016-03-30-preview", "2016-04-30-PREVIEW"]⟩] none "virtualMachines"
    ⟨"virtualMachines", ["2016-03-30-preview", "2016-04-30-PREVIEW"]⟩ rfl (by simp)
  rw [h1, h2]
  exact ⟨rfl, rfl⟩

/-- Binding a successful `Except` passes the value on. -/
theorem exceptBind_ok {e a b : Type} (x : a) (f : a → Except e b) :
    (Except.ok x >>= f) = f x := rfl

/-- Binding a failed `Except` short-circuits. -/
theorem exceptBind_err {e a b : Type} (err : e) (f : a → Except e b) :
    (Except.error err >>= f : Except e b) = Except.error err := rfl

/-- C7: the OData filter builder rejects a tag filter combined with a name
or location filter and a bare type lacking an embedded namespace; otherwise
it returns the selected predicates joined with `' and '`. -/
theorem odata_filter_builder_spec
    (rg ns ty nm loc : Option String) (tag : Option TagArg) :
    (tagTruthy tag = true → (optTruthy nm = true ∨ optTruthy loc = true) →
      ∃ e, _list_resources_odata_filter_builder rg ns ty nm tag loc = Except.error e) ∧
    (optTruthy ty = true → optTruthy ns = false → matchNsType (ty.getD "") = false →
      ∃ e, _list_resources_odata_filter_builder rg ns ty nm tag loc = Except.error e) ∧
    (∀ s, _list_resources_odata_filter_builder rg ns ty nm tag loc = Except.ok s →
      ∃ tyF tgF, typeFilterList ns ty = Except.ok tyF ∧
        tagFilterList nm loc tag = Except.ok tgF ∧
        s = String.intercalate " and "
          ((if optTruthy rg then ["resourceGroup eq '" ++ rg.getD "" ++ "'"] else []) ++
           (if optTruthy nm then ["name eq '" ++ nm.getD "" ++ "'"] else []) ++
           (if optTruthy loc then ["location eq '" ++ loc.getD "" ++ "'"] else []) ++
           tyF ++ tgF)) := by
  refine ⟨?_, ?_, ?_⟩
  · intro htag hnl
    cases htf : typeFilterList ns ty with
    | error e =>
      exact ⟨e, by simp [_list_resources_odata_filter_builder, htf, exceptBind_err, exceptBind_ok]⟩
    | ok tyF =>
      have hor : (optTruthy nm || optTruthy loc) = true := by
        rcases hnl with h | h <;> simp [h]
      refine ⟨"you cannot use the tag filter with other filters", ?_⟩
      have htg : tagFilterList nm loc tag =
          Except.error "you cannot use the tag filter with other filters" := by
        simp [tagFilterList, htag, hor]
      simp [_list_resources_odata_filter_builder, htf, htg, exceptBind_err, exceptBind_ok]
  · intro hty hns hm
    have htf : typeFilterList ns ty =
        Except.error "Malformed resource-type: --resource-type=<namespace>/<resource-type> expected." := by
      simp [typeFilterList, hty, hns, hm]
    exact ⟨"Malformed resource-type: --resource-type=<namespace>/<resource-type> expected.",
      by simp [_list_resources_odata_filter_builder, htf, exceptBind_err, exceptBind_ok]⟩
  · intro s hs
    cases htf : typeFilterList ns ty with
    | error e =>
      rw [show _list_resources_odata_filter_builder rg ns ty nm tag loc =
        Except.error e by simp [_list_resources_odata_filter_builder, htf, exceptBind_err, exceptBind_ok]] at hs
      exact absurd hs (by simp)
    | ok tyF =>
      cases htg : tagFilterList nm loc tag with
      | error e =>
        rw [show _list_resources_odata_filter_builder rg ns ty nm tag loc =
          Except.error e by simp [_list_resources_odata_filter_builder, htf, htg, exceptBind_err, exceptBind_ok]] at hs
        exact absurd hs (by simp)
      | ok tgF =>
        refine ⟨tyF, tgF, rfl, rfl, ?_⟩
        rw [show _list_resources_odata_filter_builder rg ns ty nm tag loc =
          Except.ok (String.intercalate " and "
            ((if optTruthy rg then ["resourceGroup eq '" ++ rg.getD "" ++ "'"] else []) ++
             (if optTruthy nm then ["name eq '" ++ nm.getD "" ++ "'"] else []) ++
             (if optTruthy loc then ["location eq '" ++ loc.getD "" ++ "'"] else []) ++
             tyF ++ tgF)) by simp [_list_resources_odata_filter_builder, htf, htg, exceptBind_err, exceptBind_ok]] at hs
        exact (Option.some_injective _ (congrArg Except.toOption hs)).symm

/-- C7 witness: a tag with a name filter errors; a bare type without a
namespace errors; a resource-group plus namespaced type succeeds with the
conjunctive filter. -/
theorem odata_filter_builder_spec_witness :
    (∃ e, _list_resources_odata_filter_builder none none none (some "x")
      (some (TagArg.str "t")) none = Except.error e) ∧
    (∃ e, _list_resources_odata_filter_builder none none (some "sites") none none none =
      Except.error e) ∧
    (∃ tyF tgF, typeFilterList (some "Microsoft.Web") (some "sites") = Except.ok tyF ∧
      tagFilterList none none none = Except.ok tgF ∧
      "resourceGroup eq 'rg1' and resourceType eq 'Microsoft.Web/sites'" =
        String.intercalate " and "
          ((if optTruthy (some "rg1") then ["resourceGroup eq '" ++ (some "rg1").getD "" ++ "'"] else []) ++
           (if optTruthy (none : Option String) then ["name eq '" ++ (none : Option String).getD "" ++ "'"] else []) ++
           (if optTruthy (none : Option String) then ["location eq '" ++ (none : Option String).getD "" ++ "'"] else []) ++
           tyF ++ tgF)) := by
  have h1 := (odata_filter_builder_spec none none none (some "x") none
    (some (TagArg.str "t"))).1 rfl (Or.inl rfl)
  have h2 := (odata_filter_builder_spec none none (some "sites") none none none).2.1
    rfl rfl (by decide)
  have h3 := (odata_filter_builder_spec (some "rg1") (some "Microsoft.Web") (some "sites")
    none none none).2.2
    "resourceGroup eq 'rg1' and resourceType eq 'Microsoft.Web/sites'" (by rfl)
  exact ⟨h1, h2, h3⟩

/-- Searching an appended list looks in the left list first. -/
theorem find?_append_cases {α : Type} {p : α → Bool} (l₁ l₂ : List α) :
    (l₁ ++ l₂).find? p =
      (match l₁.find? p with
       | some a => some a
       | none => l₂.find? p) := by
  induction l₁ with
  | nil => rfl
  | cons a l ih =>
    by_cases h : p a = true
    · simp [List.find?_cons, h]
    · simp [List.find?_cons, h, ih]

/-- Mapping-search over an appended list looks in the left list first. -/
theorem findSome?_append_cases {α β : Type} {f : α → Option β} (l₁ l₂ : List α) :
    (l₁ ++ l₂).findSome? f =
      (match l₁.findSome? f with
       | some b => some b
       | none => l₂.findSome? f) := by
  induction l₁ with
  | nil => rfl
  | cons a l ih =>
    cases h : f a with
    | some b => simp [List.findSome?_cons, h]
    | none => simp [List.findSome?_cons, h, ih]

/-- Mapping-search only depends on the function's values on the list. -/
theorem findSome?_congr_on {α β : Type} {f g : α → Option β} (l : List α)
    (h : ∀ x ∈ l, f x = g x) : l.findSome? f = l.findSome? g := by
  induction l with
  | nil => rfl
  | cons a l ih =>
    have ha := h a (List.mem_cons_self a l)
    have hr := ih (fun x hx => h x (List.mem_cons_of_mem a hx))
    cases hg : g a with
    | some b => simp [List.findSome?_cons, ha, hg]
    | none => simp [List.findSome?_cons, ha, hg, hr]

/-- Replacing every entry with key `k` makes `find?` for `k` return `(k, v)`,
provided some entry with key `k` exists. -/
theorem find?_map_replace (d : JDict) (k : String) (v : Json)
    (h : d.any (fun p => p.1 == k) = true) :
    (d.map (fun p => if p.1 == k then (k, v) else p)).find? (fun p => p.1 == k) =
      some (k, v) := by
  induction d with
  | nil => simp at h
  | cons a d ih =>
    by_cases ha : (a.1 == k) = true
    · rw [List.map_cons, if_pos ha]
      simp [List.find?_cons]
    · have hf : (a.1 == k) = false := by simpa using ha
      rw [List.map_cons, if_neg ha]
      simp only [List.any_cons, hf, Bool.false_or] at h
      simp only [List.find?_cons, hf]
      exact ih h

/-- Replacing every entry with key `k` leaves `find?` for another key
unchanged. -/
theorem find?_map_replace_other (d : JDict) (k k' : String) (v : Json)
    (hbk : ((k : String) == k') = false) :
    (d.map (fun p => if p.1 == k then (k, v) else p)).find? (fun p => p.1 == k') =
      d.find? (fun p => p.1 == k') := by
  induction d with
  | nil => rfl
  | cons a d ih =>
    by_cases ha : (a.1 == k) = true
    · have hak : a.1 = k := eq_of_beq ha
      have ha' : (a.1 == k') = false := by rw [hak]; exact hbk
      rw [List.map_cons, if_pos ha]
      simp only [List.find?_cons, hbk, ha']
      exact ih
    · rw [List.map_cons, if_neg ha]
      by_cases hx : (a.1 == k') = true
      · simp only [List.find?_cons, hx]
      · have hx' : (a.1 == k') = false := by simpa using hx
        simp only [List.find?_cons, hx']
        exact ih

/-- Looking up the key just set returns the new value. -/
theorem pyLookup_setKey_self (d : JDict) (k : String) (v : Json) :
    pyLookup (setKey d k v) k = some v := by
  unfold pyLookup setKey
  by_cases h : d.any (fun p => p.1 == k) = true
  · rw [if_pos h, find?_map_replace d k v h]
    rfl
  · rw [if_neg h, find?_append_cases]
    have hnone : d.find? (fun p => p.1 == k) = none := by
      rw [List.find?_eq_none]
      intro x hx hpx
      exact h (List.any_eq_true.mpr ⟨x, hx, hpx⟩)
    rw [hnone]
    simp [List.find?_cons]

/-- Setting key `k` leaves lookups of other keys unchanged. -/
theorem pyLookup_setKey_other (d : JDict) (k k' : String) (v : Json) (hkk : k' ≠ k) :
    pyLookup (setKey d k v) k' = pyLookup d k' := by
  have hbk : ((k : String) == k') = false := beq_eq_false_iff_ne.mpr (Ne.symm hkk)
  unfold pyLookup setKey
  by_cases h : d.any (fun p => p.1 == k) = true
  · rw [if_pos h, find?_map_replace_other d k k' v hbk]
  · rw [if_neg h, find?_append_cases]
    cases hd : d.find? (fun p => p.1 == k') with
    | some x => rfl
    | none => simp [List.find?_cons, hbk]

/-- The last-entry lookup of a consed dict prefers later entries. -/
theorem lastLookup_cons (a : String × Json) (e : JDict) (k : String) :
    lastLookup (a :: e) k =
      optOr (lastLookup e k) (if a.1 == k then some a.2 else none) := by
  unfold lastLookup pyLookup
  rw [List.reverse_cons, find?_append_cases]
  cases hfe : e.reverse.find? (fun p => p.1 == k) with
  | some x => simp [optOr]
  | none =>
    by_cases ha : (a.1 == k) = true <;> simp [optOr, List.find?_cons, ha]

/-- Lookup after a dict update: entries of `e` (its last occurrence per key)
override entries of `d`. -/
theorem pyLookup_dictUpdate (d e : JDict) (k : String) :
    pyLookup (dictUpdate d e) k = optOr (lastLookup e k) (pyLookup d k) := by
  induction e generalizing d with
  | nil => simp [dictUpdate, lastLookup, pyLookup, optOr]
  | cons a e ih =>
    rw [show dictUpdate d (a :: e) = dictUpdate (setKey d a.1 a.2) e from rfl, ih,
      lastLookup_cons]
    cases h1 : lastLookup e k with
    | some v => simp [optOr]
    | none =>
      simp only [optOr]
      by_cases ha : (a.1 == k) = true
      · have hak : a.1 = k := eq_of_beq ha
        rw [if_pos ha, ← hak, pyLookup_setKey_self]
      · have hne : k ≠ a.1 := fun hh => (by simp [hh] at ha)
        rw [if_neg ha, pyLookup_setKey_other d a.1 k a.2 hne]

/-- Lookup after folding updates of a document list over a base dict. -/
theorem pyLookup_foldl_update (gs : List JDict) (g : JDict) (k : String) :
    pyLookup (gs.foldl dictUpdate g) k =
      optOr (gs.reverse.findSome? (fun h => lastLookup h k)) (pyLookup g k) := by
  induction gs generalizing g with
  | nil => simp [optOr]
  | cons g0 gs ih =>
    rw [List.foldl_cons, ih, List.reverse_cons, findSome?_append_cases]
    cases hx : gs.reverse.findSome? (fun h => lastLookup h k) with
    | some v => simp [optOr]
    | none =>
      simp only [optOr, List.findSome?_cons, List.findSome?_nil]
      rw [pyLookup_dictUpdate]
      cases hy : lastLookup g0 k <;> simp [optOr, hy]

/-- On a dict with unique keys the last-entry lookup is the plain lookup. -/
theorem lastLookup_eq_pyLookup (g : JDict) (k : String)
    (hnd : (g.map Prod.fst).Nodup) :
    lastLookup g k = pyLookup g k := by
  induction g with
  | nil => rfl
  | cons a g ih =>
    have hnd2 : (a.1 :: g.map Prod.fst).Nodup := by simpa using hnd
    obtain ⟨hnotin, hnd'⟩ := List.nodup_cons.mp hnd2
    rw [lastLookup_cons]
    by_cases ha : (a.1 == k) = true
    · have hak : a.1 = k := eq_of_beq ha
      have hnog : ∀ x ∈ g, ¬ ((fun p => p.1 == k) x) = true := by
        intro x hx hpx
        have hxk : x.1 = k := eq_of_beq hpx
        have hmem : x.1 ∈ g.map Prod.fst := List.mem_map_of_mem Prod.fst hx
        rw [hxk, ← hak] at hmem
        exact hnotin hmem
      have h1 : g.find? (fun p => p.1 == k) = none := List.find?_eq_none.mpr hnog
      have h2 : g.reverse.find? (fun p => p.1 == k) = none :=
        List.find?_eq_none.mpr (fun x hx => hnog x (List.mem_reverse.mp hx))
      rw [show lastLookup g k = none by simp [lastLookup, pyLookup, h2]]
      simp [optOr, pyLookup, List.find?_cons, ha, h1]
    · have hf : (a.1 == k) = false := by simpa using ha
      rw [if_neg ha, ih hnd']
      have hcons : pyLookup (a :: g) k = pyLookup g k := by
        simp [pyLookup, List.find?_cons, hf]
      rw [hcons]
      cases hp : pyLookup g k <;> simp [optOr]

/-- A successful merge starting from an object accumulator folds the
unwrapped documents over it with `dictUpdate`. -/
theorem mergeLoop_obj (docs : List Json) (gs : List JDict) (d : JDict)
    (h : unwrapAll docs = some gs) :
    mergeLoop (some (Json.obj d)) docs =
      Except.ok (some (Json.obj (gs.foldl dictUpdate d))) := by
  induction docs generalizing gs d with
  | nil =>
    have hg : gs = [] := by simpa [unwrapAll] using h.symm
    subst hg
    rfl
  | cons doc docs ih =>
    unfold unwrapAll at h
    cases hu : unwrapDoc doc with
    | error e => rw [hu] at h; exact absurd h (by simp)
    | ok j =>
      rw [hu] at h
      cases j with
      | obj f =>
        cases hrest : unwrapAll docs with
        | none => rw [hrest] at h; exact absurd h (by simp)
        | some gs' =>
          rw [hrest] at h
          have hgs : gs = f :: gs' := by
            simpa using h.symm
          subst hgs
          simp only [mergeLoop, hu, exceptBind_ok]
          exact ih gs' (dictUpdate d f) hrest
      | null => exact absurd h (by simp)
      | str s => exact absurd h (by simp)
      | num n => exact absurd h (by simp)
      | bool b => exact absurd h (by simp)
      | arr xs => exact absurd h (by simp)

/-- C4: `_merge_parameters` applies the unwrapped documents in list order;
for every key the merged value is the one from the last document defining
it. -/
theorem merge_parameters_last_wins (docs : List Json) (gs : List JDict) (k : String)
    (hun : unwrapAll docs = some gs)
    (hnd : ∀ g ∈ gs, (g.map Prod.fst).Nodup)
    (hne : docs ≠ []) :
    ∃ m, _merge_parameters docs = Except.ok (some (Json.obj m)) ∧
      pyLookup m k = lastDefined gs k := by
  match docs, hne with
  | doc :: docs', _ =>
    unfold unwrapAll at hun
    cases hu : unwrapDoc doc with
    | error e => rw [hu] at hun; exact absurd hun (by simp)
    | ok j =>
      rw [hu] at hun
      cases j with
      | obj f =>
        cases hrest : unwrapAll docs' with
        | none => rw [hrest] at hun; exact absurd hun (by simp)
        | some gs' =>
          rw [hrest] at hun
          have hgs : gs = f :: gs' := by simpa using hun.symm
          subst hgs
          refine ⟨gs'.foldl dictUpdate f, ?_, ?_⟩
          · simp only [_merge_parameters, mergeLoop, hu, exceptBind_ok]
            exact mergeLoop_obj docs' gs' f hrest
          · rw [pyLookup_foldl_update]
            have hconv : gs'.reverse.findSome? (fun h => lastLookup h k) =
                gs'.reverse.findSome? (fun h => pyLookup h k) := by
              apply findSome?_congr_on
              intro x hx
              exact lastLookup_eq_pyLookup x k
                (hnd x (List.mem_cons_of_mem f (List.mem_reverse.mp hx)))
            rw [hconv]
            unfold lastDefined
            rw [List.reverse_cons, findSome?_append_cases]
            cases hz : gs'.reverse.findSome? (fun g => pyLookup g k) with
            | some v => simp [optOr]
            | none =>
              simp only [optOr, List.findSome?_cons, List.findSome?_nil]
              cases hy : pyLookup f k <;> simp
      | null => exact absurd hun (by simp)
      | str s => exact absurd hun (by simp)
      | num n => exact absurd hun (by simp)
      | bool b => exact absurd hun (by simp)
      | arr xs => exact absurd hun (by simp)

/-- C4 witness: two documents (the first inside a `parameters` envelope)
both defining key `a`; the merged value for `a` is the second document's. -/
theorem merge_parameters_last_wins_witness :
    ∃ m, _merge_parameters
        [Json.obj [("parameters", Json.obj [("a", Json.num 1), ("b", Json.num 5)])],
         Json.obj [("a", Json.num 2)]] = Except.ok (some (Json.obj m)) ∧
      pyLookup m "a" =
        lastDefined [[("a", Json.num 1), ("b", Json.num 5)], [("a", Json.num 2)]] "a" :=
  merge_parameters_last_wins
    [Json.obj [("parameters", Json.obj [("a", Json.num 1), ("b", Json.num 5)])],
     Json.obj [("a", Json.num 2)]]
    [[("a", Json.num 1), ("b", Json.num 5)], [("a", Json.num 2)]] "a"
    rfl (by decide) (by exact List.cons_ne_nil _ _)

end AzureCliResource
